import Mathlib

/-!
Shallow embedding of the lifetime-pos billing front-end.

The `Billing` page (cart composition, totals, save/load/clear of bills,
thermal-receipt rendering), the `PreviousBills` page (delete, reprint) and the
`Reports` page (revenue aggregation) are translated into pure Lean functions.
The external relational store is modelled as an explicit `Store` value holding
the `bills` and `bill_items` tables together with a fresh-id counter standing
for server-side id generation; each store round trip is recorded in an
operation trace.  Monetary values are rationals, matching the exact DECIMAL
arithmetic of the backing tables; ids are natural numbers standing for the
opaque UUIDs.
-/

namespace LifetimePOS

/-- A row of the `menu_items` table as consumed by the Billing page. -/
structure MenuItem where
  id : Nat
  name : String
  price : ℚ
  category : String
deriving DecidableEq

/-- An in-memory cart line (`CartItem` in the source): a menu item plus a
quantity. -/
structure CartItem where
  id : Nat
  name : String
  price : ℚ
  quantity : Nat
  category : String
deriving DecidableEq

/-- The bill fields written by `saveBill` (the `billData` object). -/
structure BillData where
  subtotal : ℚ
  tax_amount : ℚ
  discount : ℚ
  total : ℚ
  payment_method : Option String
  status : String
deriving DecidableEq

/-- A persisted row of the `bills` table. -/
structure BillRow where
  id : Nat
  data : BillData
deriving DecidableEq

/-- A persisted row of the `bill_items` table: an immutable line-item
snapshot belonging to one bill. -/
structure BillItemRow where
  id : Nat
  bill_id : Nat
  item_name_snapshot : String
  price_snapshot : ℚ
  quantity : Nat
  line_total : ℚ
deriving DecidableEq

/-- The external relational store, as seen through the client: the two tables
the billing flow writes, plus a counter standing for server-side generation of
fresh ids. -/
structure Store where
  bills : List BillRow
  bill_items : List BillItemRow
  nextId : Nat
deriving DecidableEq

/-- The in-memory billing session: the React state of the `Billing` page that
the save/load/clear flow touches (`cart`, `discount`, `paymentMethod`,
`currentBillId`). -/
structure Session where
  cart : List CartItem
  discount : ℚ
  paymentMethod : String
  currentBillId : Option Nat
deriving DecidableEq

/-- One store round trip issued by the client, in issue order. -/
inductive StoreOp where
  | insertBill : StoreOp
  | updateBill : Nat → StoreOp
  | deleteBillItems : Nat → StoreOp
  | insertBillItems : StoreOp
  | deleteBillRow : Nat → StoreOp
deriving DecidableEq

/-- The user-visible outcome of a `saveBill` call (which toast was shown). -/
inductive SaveOutcome where
  | emptyCart : SaveOutcome
  | billError : SaveOutcome
  | itemsError : SaveOutcome
  | success : SaveOutcome
deriving DecidableEq

/-- Result record of `calculateTotals`. -/
structure Totals where
  subtotal : ℚ
  taxAmount : ℚ
  total : ℚ
deriving DecidableEq

/-- `calculateTotals` from the Billing page: subtotal is a left fold of
`price * quantity` over the cart (`cart.reduce`), tax is
`subtotal * tax_percentage / 100`, total is `subtotal + taxAmount - discount`. -/
def calculateTotals (cart : List CartItem) (taxPercentage discount : ℚ) : Totals :=
  let subtotal := cart.foldl (fun sum item => sum + item.price * (item.quantity : ℚ)) 0
  let taxAmount := subtotal * taxPercentage / 100
  let total := subtotal + taxAmount - discount
  ⟨subtotal, taxAmount, total⟩

/-- `addToCart` from the Billing page: if a line with the same menu-item id
exists, bump its quantity by one, otherwise append a new line with quantity 1. -/
def addToCart (item : MenuItem) (cart : List CartItem) : List CartItem :=
  match cart.find? (fun c => c.id == item.id) with
  | some _ =>
      cart.map (fun c => if c.id == item.id then { c with quantity := c.quantity + 1 } else c)
  | none => cart ++ [⟨item.id, item.name, item.price, 1, item.category⟩]

/-- `updateQuantity` from the Billing page: clamp the new quantity at 0 with
`Math.max`, then drop every line whose quantity is not positive. -/
def updateQuantity (id : Nat) (change : Int) (cart : List CartItem) : List CartItem :=
  (cart.map (fun item =>
      if item.id == id then { item with quantity := (max 0 ((item.quantity : Int) + change)).toNat }
      else item)).filter
    (fun item => 0 < item.quantity)

/-- `removeItem` from the Billing page: drop the line with the given id. -/
def removeItem (id : Nat) (cart : List CartItem) : List CartItem :=
  cart.filter (fun item => item.id != id)

/-- `clearCart` from the Billing page: the session after discarding cart,
discount, payment method and bound bill id. -/
def clearCart : Session := ⟨[], 0, "", none⟩

/-- The line-item snapshots `saveBill` inserts: one `bill_items` row per cart
line, referencing the bill and carrying name, price, quantity and
`price * quantity`; row ids are assigned consecutively by the server. -/
def mkItems (billId : Nat) : Nat → List CartItem → List BillItemRow
  | _, [] => []
  | rowId, c :: cs =>
      ⟨rowId, billId, c.name, c.price, c.quantity, c.price * (c.quantity : ℚ)⟩ ::
        mkItems billId (rowId + 1) cs

/-- Everything a `saveBill` call produces: the new session and store, the
trace of store operations issued, the outcome toast, and the id of the bill
whose items were written (when the call got that far). -/
structure SaveResult where
  session : Session
  store : Store
  trace : List StoreOp
  outcome : SaveOutcome
  billId : Option Nat
deriving DecidableEq

/-- Tail of `saveBill` after the bill row has been written: insert the item
snapshots; on failure abandon the call (session untouched), on success show
the toast, clear the session and refresh the lists. -/
def finishSave (sess : Session) (store : Store) (trace : List StoreOp)
    (billId : Nat) (itemsOk : Bool) : SaveResult :=
  if itemsOk then
    let items := mkItems billId store.nextId sess.cart
    { session := clearCart,
      store := { store with
                 bill_items := store.bill_items ++ items,
                 nextId := store.nextId + sess.cart.length },
      trace := trace ++ [StoreOp.insertBillItems],
      outcome := SaveOutcome.success,
      billId := some billId }
  else
    { session := sess, store := store, trace := trace ++ [StoreOp.insertBillItems],
      outcome := SaveOutcome.itemsError, billId := none }

/-- `saveBill(printAfter)` from the Billing page.  An empty cart is rejected
before any store operation.  Otherwise the bill row is computed from
`calculateTotals`; its status is `printed` when `printAfter` and `draft`
otherwise, and its payment method is `null` when the selector is empty.  With
a bound bill id the row is updated in place and the old item snapshots are
deleted; without one a fresh row is inserted under a server-assigned id.  The
`billOk` and `itemsOk` flags stand for the external outcome of the bill write
and of the item insert.  `saveBillData` is the `billData` object the call
writes, factored out. -/
def saveBillData (printAfter : Bool) (taxPercentage : ℚ) (sess : Session) : BillData :=
  let t := calculateTotals sess.cart taxPercentage sess.discount
  { subtotal := t.subtotal, tax_amount := t.taxAmount, discount := sess.discount,
    total := t.total,
    payment_method := if sess.paymentMethod = "" then none else some sess.paymentMethod,
    status := if printAfter then "printed" else "draft" }

def saveBill (printAfter : Bool) (taxPercentage : ℚ) (sess : Session) (store : Store)
    (billOk itemsOk : Bool) : SaveResult :=
  if sess.cart.length = 0 then
    { session := sess, store := store, trace := [], outcome := SaveOutcome.emptyCart,
      billId := none }
  else
    let bd := saveBillData printAfter taxPercentage sess
    match sess.currentBillId with
    | some bid =>
        if billOk then
          let store1 : Store :=
            { store with
              bills := store.bills.map (fun b => if b.id == bid then { b with data := bd } else b) }
          let store2 : Store :=
            { store1 with bill_items := store1.bill_items.filter (fun it => it.bill_id != bid) }
          finishSave sess store2 [StoreOp.updateBill bid, StoreOp.deleteBillItems bid] bid itemsOk
        else
          { session := sess, store := store, trace := [StoreOp.updateBill bid],
            outcome := SaveOutcome.billError, billId := none }
    | none =>
        if billOk then
          let bid := store.nextId
          let store1 : Store :=
            { store with bills := store.bills ++ [⟨bid, bd⟩], nextId := store.nextId + 1 }
          finishSave sess store1 [StoreOp.insertBill] bid itemsOk
        else
          { session := sess, store := store, trace := [StoreOp.insertBill],
            outcome := SaveOutcome.billError, billId := none }

/-- Model of the `.single()` modifier of the client: produce a row exactly
when the filtered result has exactly one row, an error otherwise. -/
def single {α : Type} : List α → Option α
  | [a] => some a
  | _ => none

/-- `loadBill` from the Billing page: fetch the item snapshots of the bill and
rebuild the cart from them (the category of a snapshot is not recoverable and
is set to the placeholder, and the cart line id becomes the snapshot row id);
then fetch the bill row and, when exactly one exists, restore discount and
payment method (`null` becoming the empty selector) and bind the bill id. -/
def loadBill (billId : Nat) (sess : Session) (store : Store) : Session :=
  let billItems := store.bill_items.filter (fun it => it.bill_id == billId)
  let newCart := billItems.map (fun it =>
    (⟨it.id, it.item_name_snapshot, it.price_snapshot, it.quantity, "Uncategorized"⟩ : CartItem))
  let sess1 := { sess with cart := newCart }
  match single (store.bills.filter (fun b => b.id == billId)) with
  | some b =>
      { sess1 with
        discount := b.data.discount,
        paymentMethod := b.data.payment_method.getD "",
        currentBillId := some billId }
  | none => sess1

/-- `deleteBill` from the PreviousBills page: delete the item snapshots of the
bill first, then the bill row; the pair is the new store and the trace of the
two deletions in issue order. -/
def deleteBill (billId : Nat) (store : Store) : Store × List StoreOp :=
  let store1 : Store :=
    { store with bill_items := store.bill_items.filter (fun it => it.bill_id != billId) }
  let store2 : Store := { store1 with bills := store1.bills.filter (fun b => b.id != billId) }
  (store2, [StoreOp.deleteBillItems billId, StoreOp.deleteBillRow billId])

/-! ### Helper lemmas -/

/-- A left fold accumulating `price * quantity` equals the accumulator plus
the sum of the mapped list. -/
theorem foldl_price_sum (cart : List CartItem) (a : ℚ) :
    cart.foldl (fun sum item => sum + item.price * (item.quantity : ℚ)) a =
      a + (cart.map (fun item => item.price * (item.quantity : ℚ))).sum := by
  induction cart generalizing a with
  | nil => simp
  | cons c cs ih => simp [ih, add_assoc]

/-! ### Claim C2 -/

/-- Claim C2: for every cart, tax rate `t ≥ 0` and discount `d` (no clamping,
`d` may be negative or exceed the subtotal), `calculateTotals` returns exactly
subtotal `Σ price*quantity`, tax `subtotal*t/100`, and total
`subtotal + tax - d`. -/
theorem calculateTotals_exact (cart : List CartItem) (t d : ℚ) (_ht : 0 ≤ t) :
    calculateTotals cart t d =
      { subtotal := (cart.map (fun item => item.price * (item.quantity : ℚ))).sum,
        taxAmount := (cart.map (fun item => item.price * (item.quantity : ℚ))).sum * t / 100,
        total := (cart.map (fun item => item.price * (item.quantity : ℚ))).sum +
          (cart.map (fun item => item.price * (item.quantity : ℚ))).sum * t / 100 - d } := by
  simp [calculateTotals, foldl_price_sum]

/-- Witness for C2: the end-to-end scenario of the spec, one line of price 100
and quantity 2, tax 5 percent, discount 10. -/
theorem calculateTotals_exact_witness :
    (0 : ℚ) ≤ 5 ∧
      calculateTotals [⟨1, "Tea", 100, 2, "Beverage"⟩] 5 10 =
        { subtotal := (([⟨1, "Tea", 100, 2, "Beverage"⟩] : List CartItem).map
            (fun item => item.price * (item.quantity : ℚ))).sum,
          taxAmount := (([⟨1, "Tea", 100, 2, "Beverage"⟩] : List CartItem).map
            (fun item => item.price * (item.quantity : ℚ))).sum * 5 / 100,
          total := (([⟨1, "Tea", 100, 2, "Beverage"⟩] : List CartItem).map
            (fun item => item.price * (item.quantity : ℚ))).sum +
            (([⟨1, "Tea", 100, 2, "Beverage"⟩] : List CartItem).map
              (fun item => item.price * (item.quantity : ℚ))).sum * 5 / 100 - 10 } :=
  ⟨by norm_num, calculateTotals_exact [⟨1, "Tea", 100, 2, "Beverage"⟩] 5 10 (by norm_num)⟩

/-! ### Claim C9 -/

/-- The cart invariant of the data model: at most one line per distinct menu
item id, and every line has quantity at least 1. -/
def CartInv (cart : List CartItem) : Prop :=
  (cart.map (fun c => c.id)).Nodup ∧ ∀ c ∈ cart, 1 ≤ c.quantity

instance (cart : List CartItem) : Decidable (CartInv cart) := by
  unfold CartInv
  infer_instance

/-- Mapping a function that preserves ids does not change the id list of a
cart. -/
theorem map_ids_of_id_preserved (f : CartItem → CartItem)
    (hf : ∀ c, (f c).id = c.id) (cart : List CartItem) :
    (cart.map f).map (fun c => c.id) = cart.map (fun c => c.id) := by
  induction cart with
  | nil => rfl
  | cons c cs ih => simp [hf, ih]

/-- A filtered cart keeps the invariant on ids: its id list is a sublist of
the original one. -/
theorem nodup_ids_filter (p : CartItem → Bool) (cart : List CartItem)
    (h : (cart.map (fun c => c.id)).Nodup) :
    ((cart.filter p).map (fun c => c.id)).Nodup :=
  ((List.filter_sublist cart).map (fun c => c.id)).nodup h

/-- Claim C9: `addToCart`, `updateQuantity` and `removeItem` all preserve the
cart invariant (one line per menu item id, quantity at least 1); adding an
already present item keeps the cart length and bumps that line by one instead
of creating a new line; and a line whose quantity would drop to 0 or below is
removed from the cart. -/
theorem cart_mutations_preserve_invariant
    (cart : List CartItem) (item : MenuItem) (id : Nat) (change : Int)
    (h : CartInv cart) :
    CartInv (addToCart item cart) ∧ CartInv (updateQuantity id change cart) ∧
      CartInv (removeItem id cart) ∧
      (∀ c ∈ cart, c.id = item.id →
        (addToCart item cart).length = cart.length ∧
          { c with quantity := c.quantity + 1 } ∈ addToCart item cart) ∧
      (∀ c ∈ cart, c.id = id → (c.quantity : Int) + change ≤ 0 →
        ∀ c2 ∈ updateQuantity id change cart, c2.id ≠ id) := by
  obtain ⟨hids, hqty⟩ := h
  have hbump : ∀ c : CartItem,
      ((if c.id == item.id then { c with quantity := c.quantity + 1 } else c) : CartItem).id
        = c.id := by
    intro c
    by_cases hc : (c.id == item.id) = true <;> simp [hc]
  have hupd : ∀ c : CartItem,
      ((if c.id == id then
          { c with quantity := (max 0 ((c.quantity : Int) + change)).toNat }
        else c) : CartItem).id = c.id := by
    intro c
    by_cases hc : (c.id == id) = true <;> simp [hc]
  refine ⟨?_, ?_, ?_, ?_, ?_⟩
  · unfold addToCart
    cases hfind : cart.find? (fun c => c.id == item.id) with
    | some c0 =>
        constructor
        · rw [map_ids_of_id_preserved _ hbump]
          exact hids
        · intro c hc
          obtain ⟨a, ha, rfl⟩ := List.mem_map.mp hc
          by_cases hai : (a.id == item.id) = true
          · simp [hai]
          · simp only [hai, if_false]
            exact hqty a ha
    | none =>
        have hnotin : item.id ∉ cart.map (fun c => c.id) := by
          intro hmem
          obtain ⟨a, ha, haid⟩ := List.mem_map.mp hmem
          have := List.find?_eq_none.mp hfind a ha
          simp [haid] at this
        constructor
        · rw [List.map_append]
          exact List.nodup_append.mpr
            ⟨hids, List.nodup_singleton _, by
              intro x hx hx1
              simp at hx1
              exact hnotin (hx1 ▸ hx)⟩
        · intro c hc
          rcases List.mem_append.mp hc with hc1 | hc1
          · exact hqty c hc1
          · simp at hc1
            simp [hc1]
  · constructor
    · have h1 := nodup_ids_filter (fun item => 0 < item.quantity)
        (cart.map (fun c =>
          if c.id == id then
            { c with quantity := (max 0 ((c.quantity : Int) + change)).toNat }
          else c))
        (by rw [map_ids_of_id_preserved _ hupd]; exact hids)
      exact h1
    · intro c hc
      have := (List.mem_filter.mp hc).2
      simpa using this
  · constructor
    · exact nodup_ids_filter _ cart hids
    · intro c hc
      exact hqty c (List.mem_filter.mp hc).1
  · intro c hc hcid
    have hfind : (cart.find? (fun c => c.id == item.id)).isSome := by
      exact List.find?_isSome.mpr ⟨c, hc, by simp [hcid]⟩
    cases hfd : cart.find? (fun c => c.id == item.id) with
    | none => rw [hfd] at hfind; simp at hfind
    | some c0 =>
        unfold addToCart
        rw [hfd]
        constructor
        · exact List.length_map _ _
        · have := List.mem_map_of_mem
            (fun c => if c.id == item.id then { c with quantity := c.quantity + 1 } else c) hc
          simpa [hcid] using this
  · intro c hc hcid hdrop c2 hc2
    intro hc2id
    obtain ⟨hc2map, hc2pos⟩ := List.mem_filter.mp hc2
    obtain ⟨a, ha, hfa⟩ := List.mem_map.mp hc2map
    by_cases hai : (a.id == id) = true
    · have haid : a.id = id := by simpa using hai
      have hac : a = c :=
        List.inj_on_of_nodup_map hids ha hc (by rw [haid, hcid])
      subst hac
      rw [if_pos hai] at hfa
      have hq0 : c2.quantity = 0 := by
        rw [← hfa]
        simp only []
        omega
      rw [hq0] at hc2pos
      simp at hc2pos
    · rw [if_neg hai] at hfa
      subst hfa
      simp [hc2id] at hai

/-- Witness for C9 on a concrete two-line cart: the invariant holds and is
preserved by adding an existing item. -/
theorem cart_mutations_preserve_invariant_witness :
    CartInv [⟨1, "Tea", 10, 1, "Bev"⟩, ⟨2, "Bun", 5, 2, "Food"⟩] ∧
      CartInv (addToCart ⟨1, "Tea", 10, "Bev"⟩
        [⟨1, "Tea", 10, 1, "Bev"⟩, ⟨2, "Bun", 5, 2, "Food"⟩]) ∧
      CartInv (updateQuantity 2 (-2)
        [⟨1, "Tea", 10, 1, "Bev"⟩, ⟨2, "Bun", 5, 2, "Food"⟩]) :=
  ⟨by decide,
    (cart_mutations_preserve_invariant
      [⟨1, "Tea", 10, 1, "Bev"⟩, ⟨2, "Bun", 5, 2, "Food"⟩]
      ⟨1, "Tea", 10, "Bev"⟩ 2 (-2) (by decide)).1,
    (cart_mutations_preserve_invariant
      [⟨1, "Tea", 10, 1, "Bev"⟩, ⟨2, "Bun", 5, 2, "Food"⟩]
      ⟨1, "Tea", 10, "Bev"⟩ 2 (-2) (by decide)).2.1⟩

/-! ### Shape of a fully successful save -/

/-- A fully successful `saveBill` with no bound bill id: a fresh bill row is
appended under the server-assigned id, the item snapshots are appended after
it, and the session is cleared. -/
theorem saveBill_create (printAfter : Bool) (taxPct : ℚ) (sess : Session) (store : Store)
    (hc : sess.cart ≠ []) (hid : sess.currentBillId = none) :
    saveBill printAfter taxPct sess store true true =
      { session := clearCart,
        store :=
          { bills := store.bills ++ [⟨store.nextId, saveBillData printAfter taxPct sess⟩],
            bill_items := store.bill_items ++ mkItems store.nextId (store.nextId + 1) sess.cart,
            nextId := store.nextId + 1 + sess.cart.length },
        trace := [StoreOp.insertBill, StoreOp.insertBillItems],
        outcome := SaveOutcome.success,
        billId := some store.nextId } := by
  have hlen : ¬ sess.cart.length = 0 := by
    simpa [List.length_eq_zero] using hc
  simp [saveBill, hlen, hid, finishSave]

/-- A fully successful `saveBill` with a bound bill id: the bill row is
rewritten in place, the old snapshots of that bill are removed, the fresh
snapshots are appended, and the session is cleared. -/
theorem saveBill_update (printAfter : Bool) (taxPct : ℚ) (sess : Session) (store : Store)
    (bid : Nat) (hc : sess.cart ≠ []) (hid : sess.currentBillId = some bid) :
    saveBill printAfter taxPct sess store true true =
      { session := clearCart,
        store :=
          { bills := store.bills.map (fun b =>
              if b.id == bid then { b with data := saveBillData printAfter taxPct sess } else b),
            bill_items := (store.bill_items.filter (fun it => it.bill_id != bid)) ++
              mkItems bid store.nextId sess.cart,
            nextId := store.nextId + sess.cart.length },
        trace := [StoreOp.updateBill bid, StoreOp.deleteBillItems bid, StoreOp.insertBillItems],
        outcome := SaveOutcome.success,
        billId := some bid } := by
  have hlen : ¬ sess.cart.length = 0 := by
    simpa [List.length_eq_zero] using hc
  simp [saveBill, hlen, hid, finishSave]

/-! ### Claim C3 -/

/-- Claim C3: saving with an empty cart is rejected with the validation
failure before any store operation: the trace is empty, the store and the
session are unchanged, and the outcome is the empty-cart toast. -/
theorem saveBill_empty_cart_rejected (printAfter : Bool) (taxPct : ℚ)
    (sess : Session) (store : Store) (billOk itemsOk : Bool)
    (h : sess.cart = []) :
    saveBill printAfter taxPct sess store billOk itemsOk =
      { session := sess, store := store, trace := [], outcome := SaveOutcome.emptyCart,
        billId := none } := by
  simp [saveBill, h]

/-- Witness for C3 at a concrete empty session and a concrete store. -/
theorem saveBill_empty_cart_rejected_witness :
    saveBill false 5 ⟨[], 3, "cash", some 0⟩ ⟨[⟨0, ⟨1, 0, 0, 1, none, "draft"⟩⟩], [], 1⟩
        true true =
      { session := ⟨[], 3, "cash", some 0⟩,
        store := ⟨[⟨0, ⟨1, 0, 0, 1, none, "draft"⟩⟩], [], 1⟩,
        trace := [], outcome := SaveOutcome.emptyCart, billId := none } :=
  saveBill_empty_cart_rejected false 5 ⟨[], 3, "cash", some 0⟩
    ⟨[⟨0, ⟨1, 0, 0, 1, none, "draft"⟩⟩], [], 1⟩ true true rfl

/-! ### Claim C10 -/

/-- Claim C10: after every fully successful save (non-empty cart, bill write
and item insert both succeed), whether it created a new bill or updated a
bound one, the session is reset to composing: empty cart, discount 0, unset
payment method, no bound bill id. -/
theorem saveBill_success_resets_session (printAfter : Bool) (taxPct : ℚ)
    (sess : Session) (store : Store) (hc : sess.cart ≠ []) :
    (saveBill printAfter taxPct sess store true true).outcome = SaveOutcome.success ∧
      (saveBill printAfter taxPct sess store true true).session =
        { cart := [], discount := 0, paymentMethod := "", currentBillId := none } := by
  cases hid : sess.currentBillId with
  | none => rw [saveBill_create printAfter taxPct sess store hc hid]; exact ⟨rfl, rfl⟩
  | some bid => rw [saveBill_update printAfter taxPct sess store bid hc hid]; exact ⟨rfl, rfl⟩

/-- Witness for C10 at a concrete one-line cart, discount 10, payment method
cash, editing bill 0. -/
theorem saveBill_success_resets_session_witness :
    (saveBill true 5 ⟨[⟨1, "Tea", 100, 2, "Bev"⟩], 10, "cash", some 0⟩
        ⟨[⟨0, ⟨1, 0, 0, 1, none, "draft"⟩⟩], [], 1⟩ true true).outcome =
        SaveOutcome.success ∧
      (saveBill true 5 ⟨[⟨1, "Tea", 100, 2, "Bev"⟩], 10, "cash", some 0⟩
        ⟨[⟨0, ⟨1, 0, 0, 1, none, "draft"⟩⟩], [], 1⟩ true true).session =
        { cart := [], discount := 0, paymentMethod := "", currentBillId := none } :=
  saveBill_success_resets_session true 5 ⟨[⟨1, "Tea", 100, 2, "Bev"⟩], 10, "cash", some 0⟩
    ⟨[⟨0, ⟨1, 0, 0, 1, none, "draft"⟩⟩], [], 1⟩ (by decide)

/-! ### Claim C1 -/

/-- Counterexample to C1 as stated: a concrete save of a non-empty cart with
`printAfter = false` persists the bill with status `draft`, not `saved`. -/
theorem saveBill_saved_status_counterexample :
    ((saveBill false 5 ⟨[⟨1, "Tea", 100, 2, "Bev"⟩], 0, "", none⟩ ⟨[], [], 0⟩
        true true).store.bills.map (fun b => b.data.status)) = ["draft"] ∧
      ("draft" : String) ≠ "saved" := by
  constructor
  · rfl
  · decide

/-- Claim C1 as amended: for every non-empty cart a fully successful
`saveBill(printAfter)` persists the bill with status `printed` when
`printAfter` is true and status `draft` when `printAfter` is false; in either
case the persisted status is not `saved`.  (When a bill id is bound it must
name a stored bill for the updated row to exist.) -/
theorem saveBill_status_amended (printAfter : Bool) (taxPct : ℚ)
    (sess : Session) (store : Store) (hc : sess.cart ≠ [])
    (hbound : ∀ bid, sess.currentBillId = some bid → ∃ b ∈ store.bills, b.id = bid) :
    ∃ bid, (saveBill printAfter taxPct sess store true true).billId = some bid ∧
      ∃ b ∈ (saveBill printAfter taxPct sess store true true).store.bills,
        b.id = bid ∧ b.data.status = (if printAfter then "printed" else "draft") ∧
          b.data.status ≠ "saved" := by
  have hstat : (saveBillData printAfter taxPct sess).status =
      (if printAfter then "printed" else "draft") := rfl
  have hne : (saveBillData printAfter taxPct sess).status ≠ "saved" := by
    rw [hstat]
    cases printAfter <;> decide
  cases hid : sess.currentBillId with
  | none =>
      rw [saveBill_create printAfter taxPct sess store hc hid]
      refine ⟨store.nextId, rfl, ⟨store.nextId, saveBillData printAfter taxPct sess⟩, ?_, rfl,
        hstat, hne⟩
      simp
  | some bid =>
      obtain ⟨b0, hb0, hb0id⟩ := hbound bid hid
      rw [saveBill_update printAfter taxPct sess store bid hc hid]
      refine ⟨bid, rfl, { b0 with data := saveBillData printAfter taxPct sess }, ?_, ?_, hstat,
        hne⟩
      · have := List.mem_map_of_mem
          (fun b => if b.id == bid then { b with data := saveBillData printAfter taxPct sess }
            else b) hb0
        simpa [hb0id] using this
      · simpa using hb0id

/-- Witness for the amended C1 with a concrete new bill (no bound id). -/
theorem saveBill_status_amended_witness :
    ∃ bid, (saveBill false 5 ⟨[⟨1, "Tea", 100, 2, "Bev"⟩], 0, "", none⟩ ⟨[], [], 0⟩
        true true).billId = some bid ∧
      ∃ b ∈ (saveBill false 5 ⟨[⟨1, "Tea", 100, 2, "Bev"⟩], 0, "", none⟩ ⟨[], [], 0⟩
          true true).store.bills,
        b.id = bid ∧ b.data.status = (if false then "printed" else "draft") ∧
          b.data.status ≠ "saved" :=
  saveBill_status_amended false 5 ⟨[⟨1, "Tea", 100, 2, "Bev"⟩], 0, "", none⟩ ⟨[], [], 0⟩
    (by decide) (fun bid h => Option.noConfusion h)

/-! ### Claim C4 -/

/-- What the round-trip claim asks of the reloaded session: same item names,
unit prices, quantities, discount and payment method as the saved session,
and every reloaded line carrying the placeholder category. -/
def ReproducesSession (sess2 sess : Session) : Prop :=
  sess2.cart.map (fun c => c.name) = sess.cart.map (fun c => c.name) ∧
    sess2.cart.map (fun c => c.price) = sess.cart.map (fun c => c.price) ∧
    sess2.cart.map (fun c => c.quantity) = sess.cart.map (fun c => c.quantity) ∧
    sess2.discount = sess.discount ∧
    sess2.paymentMethod = sess.paymentMethod ∧
    ∀ c ∈ sess2.cart, c.category = "Uncategorized"

instance (sess2 sess : Session) : Decidable (ReproducesSession sess2 sess) := by
  unfold ReproducesSession
  infer_instance

/-- The snapshots written for a cart carry the cart names in order. -/
theorem mkItems_names (bid : Nat) (cart : List CartItem) : ∀ rowId,
    (mkItems bid rowId cart).map (fun it => it.item_name_snapshot) =
      cart.map (fun c => c.name) := by
  induction cart with
  | nil => intro rowId; rfl
  | cons c cs ih => intro rowId; simp [mkItems, ih]

/-- The snapshots written for a cart carry the cart unit prices in order. -/
theorem mkItems_prices (bid : Nat) (cart : List CartItem) : ∀ rowId,
    (mkItems bid rowId cart).map (fun it => it.price_snapshot) =
      cart.map (fun c => c.price) := by
  induction cart with
  | nil => intro rowId; rfl
  | cons c cs ih => intro rowId; simp [mkItems, ih]

/-- The snapshots written for a cart carry the cart quantities in order. -/
theorem mkItems_quantities (bid : Nat) (cart : List CartItem) : ∀ rowId,
    (mkItems bid rowId cart).map (fun it => it.quantity) =
      cart.map (fun c => c.quantity) := by
  induction cart with
  | nil => intro rowId; rfl
  | cons c cs ih => intro rowId; simp [mkItems, ih]

/-- Every snapshot written for a cart references the bill it was written
for. -/
theorem mkItems_bill_id (bid : Nat) (cart : List CartItem) : ∀ rowId,
    ∀ it ∈ mkItems bid rowId cart, it.bill_id = bid := by
  induction cart with
  | nil => intro rowId it hit; cases hit
  | cons c cs ih =>
      intro rowId it hit
      rcases List.mem_cons.mp hit with rfl | hmem
      · rfl
      · exact ih (rowId + 1) it hmem

/-- `loadBill` in terms of the two row fetches: when the item filter yields
`items` and the bill filter yields exactly one row, the session becomes the
rebuilt cart with that bill bound and its discount and payment method
restored. -/
theorem loadBill_spec (bid : Nat) (sess : Session) (store : Store) (row : BillRow)
    (items : List BillItemRow)
    (hitems : store.bill_items.filter (fun it => it.bill_id == bid) = items)
    (hrow : store.bills.filter (fun b => b.id == bid) = [row]) :
    loadBill bid sess store =
      { cart := items.map (fun it =>
          (⟨it.id, it.item_name_snapshot, it.price_snapshot, it.quantity,
            "Uncategorized"⟩ : CartItem)),
        discount := row.data.discount,
        paymentMethod := row.data.payment_method.getD "",
        currentBillId := some bid } := by
  simp [loadBill, hitems, hrow, single]

/-- Updating one bill row in place and filtering on its id recovers exactly
the updated row, when the table has no duplicate ids. -/
theorem filter_map_update_eq (bid : Nat) (bd : BillData) (l : List BillRow) :
    (l.map (fun b => b.id)).Nodup → ∀ b0 ∈ l, b0.id = bid →
      (l.map (fun b => if b.id == bid then { b with data := bd } else b)).filter
          (fun b => b.id == bid) =
        [{ b0 with data := bd }] := by
  induction l with
  | nil => intro _ b0 hb0 _; exact absurd hb0 (List.not_mem_nil b0)
  | cons a l ih =>
      intro hnd b0 hb0 hid
      rw [List.map_cons] at hnd
      have hhead : a.id ∉ l.map (fun b => b.id) := (List.nodup_cons.mp hnd).1
      have hndl : (l.map (fun b => b.id)).Nodup := (List.nodup_cons.mp hnd).2
      rcases List.mem_cons.mp hb0 with heq | hmem
      · subst heq
        simp only [List.map_cons]
        rw [if_pos (by simp [hid])]
        rw [List.filter_cons_of_pos (by simp [hid])]
        have htail : (l.map (fun b => if b.id == bid then { b with data := bd } else b)).filter
            (fun b => b.id == bid) = [] := by
          rw [List.filter_eq_nil_iff]
          intro x hx
          obtain ⟨b, hb, rfl⟩ := List.mem_map.mp hx
          by_cases hbid : (b.id == bid) = true
          · exact absurd (List.mem_map.mpr ⟨b, hb, by simp at hbid; rw [hbid, ← hid]⟩) hhead
          · rw [if_neg hbid]
            simpa using hbid
        rw [htail]
      · have haid : ¬ ((a.id == bid) = true) := by
          intro h
          have h1 : a.id = bid := by simpa using h
          exact hhead (List.mem_map.mpr ⟨b0, hmem, by rw [hid, ← h1]⟩)
        simp only [List.map_cons]
        rw [if_neg haid]
        rw [List.filter_cons_of_neg (by simpa using haid)]
        exact ih hndl b0 hmem hid

/-- The payment method survives the save encoding (empty selector stored as
`null`) followed by the load decoding (`null` restored as empty selector). -/
theorem paymentMethod_roundtrip (pm : String) :
    ((if pm = "" then none else some pm) : Option String).getD "" = pm := by
  by_cases h : pm = "" <;> simp [h]

/-- Claim C4: for every non-empty cart, discount and payment method, a fully
successful `saveBill` followed by `loadBill` of the saved bill id reproduces
the item names, unit prices, quantities, discount and payment method, and
every reloaded cart line carries the placeholder category `Uncategorized`.
The store is well formed: ids are unique and below the fresh-id counter, and
a bound bill id names a stored bill. -/
theorem saveBill_loadBill_roundtrip (printAfter : Bool) (taxPct : ℚ)
    (sess : Session) (store : Store) (hc : sess.cart ≠ [])
    (hwf1 : ∀ b ∈ store.bills, b.id < store.nextId)
    (hwf2 : (store.bills.map (fun b => b.id)).Nodup)
    (hwf3 : ∀ it ∈ store.bill_items, it.bill_id < store.nextId)
    (hbound : ∀ bid, sess.currentBillId = some bid → ∃ b ∈ store.bills, b.id = bid) :
    ∃ bid, (saveBill printAfter taxPct sess store true true).billId = some bid ∧
      ReproducesSession
        (loadBill bid (saveBill printAfter taxPct sess store true true).session
          (saveBill printAfter taxPct sess store true true).store)
        sess := by
  have hcat : ∀ (items : List BillItemRow),
      ∀ c ∈ items.map (fun it =>
        (⟨it.id, it.item_name_snapshot, it.price_snapshot, it.quantity,
          "Uncategorized"⟩ : CartItem)), c.category = "Uncategorized" := by
    intro items c hcmem
    obtain ⟨it, _, rfl⟩ := List.mem_map.mp hcmem
    rfl
  have hproj : ∀ (bid rowId : Nat),
      ReproducesSession
        { cart := (mkItems bid rowId sess.cart).map (fun it =>
            (⟨it.id, it.item_name_snapshot, it.price_snapshot, it.quantity,
              "Uncategorized"⟩ : CartItem)),
          discount := (saveBillData printAfter taxPct sess).discount,
          paymentMethod := (saveBillData printAfter taxPct sess).payment_method.getD "",
          currentBillId := some bid }
        sess := by
    intro bid rowId
    refine ⟨?_, ?_, ?_, rfl, paymentMethod_roundtrip sess.paymentMethod, hcat _⟩
    · rw [List.map_map]
      exact mkItems_names bid sess.cart rowId
    · rw [List.map_map]
      exact mkItems_prices bid sess.cart rowId
    · rw [List.map_map]
      exact mkItems_quantities bid sess.cart rowId
  cases hid : sess.currentBillId with
  | none =>
      rw [saveBill_create printAfter taxPct sess store hc hid]
      refine ⟨store.nextId, rfl, ?_⟩
      have hitems : (store.bill_items ++
            mkItems store.nextId (store.nextId + 1) sess.cart).filter
          (fun it => it.bill_id == store.nextId) =
            mkItems store.nextId (store.nextId + 1) sess.cart := by
        rw [List.filter_append]
        have hold : store.bill_items.filter (fun it => it.bill_id == store.nextId) = [] := by
          rw [List.filter_eq_nil_iff]
          intro it hit
          have := hwf3 it hit
          simp
          omega
        have hnew : (mkItems store.nextId (store.nextId + 1) sess.cart).filter
            (fun it => it.bill_id == store.nextId) =
              mkItems store.nextId (store.nextId + 1) sess.cart := by
          rw [List.filter_eq_self]
          intro it hit
          simp [mkItems_bill_id store.nextId sess.cart (store.nextId + 1) it hit]
        rw [hold, hnew, List.nil_append]
      have hrow : (store.bills ++
            [({ id := store.nextId, data := saveBillData printAfter taxPct sess } :
              BillRow)]).filter
          (fun b => b.id == store.nextId) =
            [({ id := store.nextId, data := saveBillData printAfter taxPct sess } :
              BillRow)] := by
        rw [List.filter_append]
        have hold : store.bills.filter (fun b => b.id == store.nextId) = [] := by
          rw [List.filter_eq_nil_iff]
          intro b hb
          have := hwf1 b hb
          simp
          omega
        rw [hold, List.nil_append]
        simp
      rw [loadBill_spec store.nextId clearCart _ _ _ hitems hrow]
      exact hproj store.nextId (store.nextId + 1)
  | some bid =>
      obtain ⟨b0, hb0, hb0id⟩ := hbound bid hid
      rw [saveBill_update printAfter taxPct sess store bid hc hid]
      refine ⟨bid, rfl, ?_⟩
      have hitems : ((store.bill_items.filter (fun it => it.bill_id != bid)) ++
            mkItems bid store.nextId sess.cart).filter
          (fun it => it.bill_id == bid) = mkItems bid store.nextId sess.cart := by
        rw [List.filter_append]
        have hold : (store.bill_items.filter (fun it => it.bill_id != bid)).filter
            (fun it => it.bill_id == bid) = [] := by
          rw [List.filter_eq_nil_iff]
          intro it hit
          have := (List.mem_filter.mp hit).2
          simp at this
          simp [this]
        have hnew : (mkItems bid store.nextId sess.cart).filter
            (fun it => it.bill_id == bid) = mkItems bid store.nextId sess.cart := by
          rw [List.filter_eq_self]
          intro it hit
          simp [mkItems_bill_id bid sess.cart store.nextId it hit]
        rw [hold, hnew, List.nil_append]
      have hrow : (store.bills.map (fun b =>
            if b.id == bid then { b with data := saveBillData printAfter taxPct sess }
            else b)).filter (fun b => b.id == bid) =
          [{ b0 with data := saveBillData printAfter taxPct sess }] :=
        filter_map_update_eq bid (saveBillData printAfter taxPct sess) store.bills
          hwf2 b0 hb0 hb0id
      rw [loadBill_spec bid clearCart _ _ _ hitems hrow]
      exact hproj bid store.nextId

/-- Witness for C4: a concrete two-line cart with discount 10 and payment
method upi, saved into an empty store and reloaded. -/
theorem saveBill_loadBill_roundtrip_witness :
    ∃ bid, (saveBill false 5 ⟨[⟨1, "Tea", 100, 2, "Bev"⟩, ⟨2, "Bun", 5, 1, "Food"⟩],
        10, "upi", none⟩ ⟨[], [], 0⟩ true true).billId = some bid ∧
      ReproducesSession
        (loadBill bid
          (saveBill false 5 ⟨[⟨1, "Tea", 100, 2, "Bev"⟩, ⟨2, "Bun", 5, 1, "Food"⟩],
            10, "upi", none⟩ ⟨[], [], 0⟩ true true).session
          (saveBill false 5 ⟨[⟨1, "Tea", 100, 2, "Bev"⟩, ⟨2, "Bun", 5, 1, "Food"⟩],
            10, "upi", none⟩ ⟨[], [], 0⟩ true true).store)
        ⟨[⟨1, "Tea", 100, 2, "Bev"⟩, ⟨2, "Bun", 5, 1, "Food"⟩], 10, "upi", none⟩ :=
  saveBill_loadBill_roundtrip false 5
    ⟨[⟨1, "Tea", 100, 2, "Bev"⟩, ⟨2, "Bun", 5, 1, "Food"⟩], 10, "upi", none⟩ ⟨[], [], 0⟩
    (by decide) (by intro b hb; cases hb) (by decide) (by intro it hit; cases hit)
    (fun bid h => Option.noConfusion h)

/-! ### Claim C8 -/

/-- Claim C8: deleting a bill issues the line-item deletion before the
bill-row deletion, and afterwards the store holds neither the bill row nor
any snapshot referencing the bill id, so a subsequent `loadBill` of that id
rebuilds an empty cart and finds no bill to restore from. -/
theorem deleteBill_removes_bill_and_items (billId : Nat) (store : Store) (sess : Session) :
    (deleteBill billId store).2 =
        [StoreOp.deleteBillItems billId, StoreOp.deleteBillRow billId] ∧
      (∀ b ∈ (deleteBill billId store).1.bills, b.id ≠ billId) ∧
      (∀ it ∈ (deleteBill billId store).1.bill_items, it.bill_id ≠ billId) ∧
      loadBill billId sess (deleteBill billId store).1 = { sess with cart := [] } := by
  refine ⟨rfl, ?_, ?_, ?_⟩
  · intro b hb
    have := (List.mem_filter.mp hb).2
    simpa using this
  · intro it hit
    have := (List.mem_filter.mp hit).2
    simpa using this
  · have hitems : (deleteBill billId store).1.bill_items.filter
        (fun it => it.bill_id == billId) = [] := by
      rw [List.filter_eq_nil_iff]
      intro it hit
      have := (List.mem_filter.mp hit).2
      simp at this
      simp [this]
    have hbills : (deleteBill billId store).1.bills.filter
        (fun b => b.id == billId) = [] := by
      rw [List.filter_eq_nil_iff]
      intro b hb
      have := (List.mem_filter.mp hb).2
      simp at this
      simp [this]
    simp [loadBill, hitems, hbills, single]

/-! ### Receipt formatting -/

/-- JS `String.prototype.padStart(width)` with the default space filler: when
the string is shorter than the width, prepend spaces up to the width. -/
def padStartJs (s : String) (width : Nat) : String :=
  String.mk (List.replicate (width - s.length) ' ') ++ s

/-- JS `String.prototype.padEnd(width)` with the default space filler: when
the string is shorter than the width, append spaces up to the width. -/
def padEndJs (s : String) (width : Nat) : String :=
  s ++ String.mk (List.replicate (width - s.length) ' ')

/-- The `center` helper of `printBill`: prefix the text with
`Math.max(0, Math.floor((width - text.length) / 2))` spaces. -/
def center (text : String) (width : Nat) : String :=
  let padding := (max 0 (((width : Int) - (text.length : Int)).fdiv 2)).toNat
  String.mk (List.replicate padding ' ') ++ text

/-- JS `Number.toFixed(2)` on the exact DECIMAL(10,2) values the store holds:
scale by 100 rounding ties away from zero, then print integer part, dot, and
two digits. -/
def fixed2Digits (p : Nat) : String :=
  toString (p / 100) ++ "." ++
    (if p % 100 < 10 then "0" ++ toString (p % 100) else toString (p % 100))

def toFixed2 (q : ℚ) : String :=
  if q < 0 then "-" ++ fixed2Digits (Int.toNat (Int.floor (-q * 100 + 1 / 2)))
  else fixed2Digits (Int.toNat (Int.floor (q * 100 + 1 / 2)))

/-- One item line of the text receipt in `printBill`: the name truncated to
13 characters plus an ellipsis when longer than 16 and padded to 16
otherwise, then quantity in 3 columns, unit price in 5, line total in 6,
space separated. -/
def renderItemLine (it : BillItemRow) : String :=
  let name := if it.item_name_snapshot.length > 16 then it.item_name_snapshot.take 13 ++ "..."
    else padEndJs it.item_name_snapshot 16
  let qty := padStartJs (toString it.quantity) 3
  let price := padStartJs (toFixed2 it.price_snapshot) 5
  let total := padStartJs (toFixed2 it.line_total) 6
  name ++ " " ++ qty ++ " " ++ price ++ " " ++ total ++ "\n"

/-! ### Claim C6 -/

/-- Claim C6: `center` returns the text prefixed by exactly
`max(0, floor((width - length) / 2))` spaces — equivalently, by
`(width - length) / 2` in truncated natural arithmetic, so the count is
never negative — and in particular `center "Shop" 32` is exactly 14 spaces
followed by `Shop`. -/
theorem center_pads_with_clamped_floor (s : String) (w : Nat) :
    center s w = String.mk (List.replicate ((w - s.length) / 2) ' ') ++ s ∧
      (max 0 (((w : Int) - (s.length : Int)).fdiv 2)).toNat = (w - s.length) / 2 ∧
      center "Shop" 32 = String.mk (List.replicate 14 ' ') ++ "Shop" := by
  have key : ∀ (len ww : Nat),
      (max 0 (((ww : Int) - (len : Int)).fdiv 2)).toNat = (ww - len) / 2 := by
    intro len ww
    rw [Int.fdiv_eq_ediv _ (by norm_num)]
    omega
  refine ⟨?_, key s.length w, ?_⟩
  · show String.mk (List.replicate ((max 0 (((w : Int) - (s.length : Int)).fdiv 2)).toNat) ' ')
        ++ s = String.mk (List.replicate ((w - s.length) / 2) ' ') ++ s
    rw [key s.length w]
  · decide

/-! ### Claim C7 -/

/-- The item-name column rule as the claim words it: the first 13 characters
followed by an ellipsis when the name is longer than 16 characters, otherwise
the name right-padded with spaces to 16 characters. -/
def itemNameColumnSpec (name : String) : String :=
  if 16 < name.length then name.take 13 ++ "..."
  else name ++ String.mk (List.replicate (16 - name.length) ' ')

/-- Right justification to a column width as the claim words it: leading
spaces up to the width, then the text. -/
def rightJustifySpec (width : Nat) (s : String) : String :=
  String.mk (List.replicate (width - s.length) ' ') ++ s

/-- Claim C7: every receipt item line is the name column per the
truncate-or-pad rule, the quantity right-justified to 3 characters, the unit
price to 2 decimals right-justified to 5, and the line total to 2 decimals
right-justified to 6, space separated; a 20-character name renders as its
first 13 characters plus an ellipsis. -/
theorem renderItemLine_columns (it : BillItemRow) :
    renderItemLine it = itemNameColumnSpec it.item_name_snapshot ++ " " ++
        rightJustifySpec 3 (toString it.quantity) ++ " " ++
        rightJustifySpec 5 (toFixed2 it.price_snapshot) ++ " " ++
        rightJustifySpec 6 (toFixed2 it.line_total) ++ "\n" ∧
      (it.item_name_snapshot.length = 20 →
        itemNameColumnSpec it.item_name_snapshot = it.item_name_snapshot.take 13 ++ "...") := by
  constructor
  · show (if it.item_name_snapshot.length > 16 then it.item_name_snapshot.take 13 ++ "..."
        else padEndJs it.item_name_snapshot 16) ++ " " ++
        padStartJs (toString it.quantity) 3 ++ " " ++
        padStartJs (toFixed2 it.price_snapshot) 5 ++ " " ++
        padStartJs (toFixed2 it.line_total) 6 ++ "\n" = _
    rfl
  · intro h20
    unfold itemNameColumnSpec
    rw [if_pos (by omega)]

/-- Witness for C7 at a concrete snapshot whose 20-character name triggers the
truncation rule. -/
theorem renderItemLine_columns_witness :
    ("ABCDEFGHIJKLMNOPQRST" : String).length = 20 ∧
      itemNameColumnSpec "ABCDEFGHIJKLMNOPQRST" =
        ("ABCDEFGHIJKLMNOPQRST" : String).take 13 ++ "..." :=
  ⟨by decide,
    (renderItemLine_columns ⟨0, 0, "ABCDEFGHIJKLMNOPQRST", 0, 1, 0⟩).2 (by decide)⟩

/-! ### Revenue aggregation (Reports page) -/

/-- A `bills` row as read by the Reports page: date (as an abstract
timestamp), total, payment method and status. -/
structure ReportBill where
  date : Nat
  total : ℚ
  payment_method : Option String
  status : String
deriving DecidableEq

/-- One point of the date-bucketed revenue series. -/
structure RevenueData where
  date : String
  revenue : ℚ
  bills : Nat
deriving DecidableEq

/-- One bucket of the payment-method series. -/
structure PaymentMethodData where
  method : String
  amount : ℚ
  count : Nat
deriving DecidableEq

/-- The aggregates and series the Reports page derives in
`fetchRevenueData`. -/
structure RevenueReport where
  revenueData : List RevenueData
  paymentData : List PaymentMethodData
  totalRevenue : ℚ
  totalBills : Nat
  avgBillValue : ℚ
deriving DecidableEq

/-- The row filter of the Reports query: status not `draft` and date within
the closed range. -/
def reportFilter (startDate endDate : Nat) (b : ReportBill) : Bool :=
  b.status != "draft" && decide (startDate ≤ b.date) && decide (b.date ≤ endDate)

/-- The Reports query: the non-draft bills of the range, ordered by date. -/
def rangeBills (allBills : List ReportBill) (startDate endDate : Nat) : List ReportBill :=
  (allBills.filter (reportFilter startDate endDate)).mergeSort
    (fun a b => decide (a.date ≤ b.date))

/-- One step of the JS object-keyed grouping: bump the bucket of the key by
the amount and one bill, inserting a fresh bucket at the end on first
sight. -/
def bumpGroup (m : List (String × ℚ × Nat)) (key : String) (amount : ℚ) :
    List (String × ℚ × Nat) :=
  if m.any (fun p => p.1 == key) then
    m.map (fun p => if p.1 == key then (p.1, p.2.1 + amount, p.2.2 + 1) else p)
  else m ++ [(key, amount, 1)]

/-- The decimal rounding of `Number(x.toFixed(2))` applied to the chart
amounts: round to 2 decimals, ties up. -/
def round2 (q : ℚ) : ℚ := ((Int.floor (q * 100 + 1 / 2) : ℚ)) / 100

/-- JS `method.charAt(0).toUpperCase() + method.slice(1)`. -/
def capitalizeJs (s : String) : String :=
  match s.data with
  | [] => s
  | c :: cs => String.mk (c.toUpper :: cs)

/-- `fetchRevenueData` from the Reports page: on an empty result set, zeroed
aggregates and empty series; otherwise total revenue as a fold, bill count,
average as `total / count`, the date-bucketed series keyed by the formatted
day label, and the payment-method series keyed by the method (absent methods
bucketed as `Not Specified`, labels capitalized).  `fmtDay` stands for the
external date-fns `format(date, "MMM dd")`. -/
def fetchRevenueData (fmtDay : Nat → String) (allBills : List ReportBill)
    (startDate endDate : Nat) : RevenueReport :=
  let bills := rangeBills allBills startDate endDate
  if bills.length = 0 then
    { revenueData := [], paymentData := [], totalRevenue := 0, totalBills := 0,
      avgBillValue := 0 }
  else
    let total := bills.foldl (fun sum b => sum + b.total) 0
    let groupedByDate := bills.foldl
      (fun m b => bumpGroup m (fmtDay b.date) b.total) []
    let chartData := groupedByDate.map
      (fun p => (⟨p.1, round2 p.2.1, p.2.2⟩ : RevenueData))
    let paymentMethods := bills.foldl
      (fun m b => bumpGroup m (b.payment_method.getD "Not Specified") b.total) []
    let paymentChartData := paymentMethods.map
      (fun p => (⟨capitalizeJs p.1, round2 p.2.1, p.2.2⟩ : PaymentMethodData))
    { revenueData := chartData, paymentData := paymentChartData,
      totalRevenue := total, totalBills := bills.length,
      avgBillValue := total / (bills.length : ℚ) }

/-! ### Claim C5 -/

/-- Claim C5: a date range containing no non-draft bill yields total revenue
0, bill count 0, average bill value 0 and empty series; and in general the
average is 0 whenever the bill count is 0 — the division is only performed on
a positive count, so no division by zero ever occurs. -/
theorem fetchRevenueData_empty_range (fmtDay : Nat → String)
    (allBills : List ReportBill) (startDate endDate : Nat)
    (h : ∀ b ∈ allBills, b.status = "draft" ∨ b.date < startDate ∨ endDate < b.date) :
    fetchRevenueData fmtDay allBills startDate endDate =
        { revenueData := [], paymentData := [], totalRevenue := 0, totalBills := 0,
          avgBillValue := 0 } ∧
      ∀ bs : List ReportBill,
        (fetchRevenueData fmtDay bs startDate endDate).totalBills = 0 →
          (fetchRevenueData fmtDay bs startDate endDate).avgBillValue = 0 := by
  constructor
  · have hfil : allBills.filter (reportFilter startDate endDate) = [] := by
      rw [List.filter_eq_nil_iff]
      intro b hb
      unfold reportFilter
      rcases h b hb with hs | hd | hd
      · simp [hs]
      · simp
        omega
      · simp
        omega
    simp [fetchRevenueData, rangeBills, hfil]
  · intro bs
    by_cases hlen : (rangeBills bs startDate endDate).length = 0
    · intro _
      simp [fetchRevenueData, hlen]
    · simp only [fetchRevenueData]
      rw [if_neg hlen]
      intro h0
      exact absurd h0 hlen

/-- Witness for C5: a store holding one draft bill inside the range and one
printed bill outside it. -/
theorem fetchRevenueData_empty_range_witness :
    fetchRevenueData (fun _ => "Jan 01")
        [⟨15, 100, some "cash", "draft"⟩, ⟨50, 20, none, "printed"⟩] 10 30 =
        { revenueData := [], paymentData := [], totalRevenue := 0, totalBills := 0,
          avgBillValue := 0 } ∧
      ∀ bs : List ReportBill,
        (fetchRevenueData (fun _ => "Jan 01") bs 10 30).totalBills = 0 →
          (fetchRevenueData (fun _ => "Jan 01") bs 10 30).avgBillValue = 0 :=
  fetchRevenueData_empty_range (fun _ => "Jan 01")
    [⟨15, 100, some "cash", "draft"⟩, ⟨50, 20, none, "printed"⟩] 10 30 (by decide)

end LifetimePOS
